import Mathlib

/-!
Verification development for the opentelemetry-collector fork: a shallow
embedding of the typed telemetry data model (pdata), the attributes
processor, the fan-out consumer and the receivers builder, together with
theorems settling the frozen claims about them.

The attributes processor is embedded from
src/processor/attributesprocessor/attributes.go.  The pdata containers
(AttributeMap, StringMap, AttributeValue), the fan-out consumer, the
receivers builder and zipkinreceiver.New are code of this repository whose
implementation files are not under src/ (only their tests are); those parts
are modelled from the spec, and where the repository's own tests pin a
behaviour the model follows the tests (each such point is noted in the
doc comment of the definition).
-/

namespace OTel

/-! ## Telemetry attribute values (pdata common)

Modelled from the spec: attribute values are a tagged union over
{string, int64, double, bool, null, nested-map, nested-array}
(spec section 3.1); the wire form is otlpcommon.AnyValue, a oneof.
The double payload is carried opaquely (no claim computes with doubles),
represented here by an integer code standing for the bit pattern. -/
inductive AnyValue where
  | stringValue (s : String)
  | intValue (i : Int)
  | doubleValue (bits : Int)
  | boolValue (b : Bool)
  | arrayValue (vs : List AnyValue)
  | kvlistValue (kvs : List (String × AnyValue))

/-- Modelled from the spec: an otlpcommon.KeyValue wire entry: a key plus an
optional AnyValue payload (a present entry may still carry a nil value,
as in TestAttributeMapWithNilValues). -/
structure KeyValue where
  key : String
  value : Option AnyValue

/-- Modelled from the spec: a pdata AttributeValue is a wrapper over an
optional AnyValue; none stands for a nil or value-less wire entry. -/
abbrev AttributeValue := Option AnyValue

/-- The pdata attribute value type tags (AttributeValueNULL, ...). -/
inductive AttributeValueType where
  | NULL
  | STRING
  | INT
  | DOUBLE
  | BOOL
  | MAP
  | ARRAY
deriving DecidableEq, Repr

/-- Modelled from the spec: AttributeValue.Type consults the tagged union;
a nil or value-less wire entry reports NULL
(pinned by TestAttributeMapWithNilValues: a KeyValue with Value nil has
type AttributeValueNULL). -/
def attrType : AttributeValue → AttributeValueType
  | none => .NULL
  | some (.stringValue _) => .STRING
  | some (.intValue _) => .INT
  | some (.doubleValue _) => .DOUBLE
  | some (.boolValue _) => .BOOL
  | some (.kvlistValue _) => .MAP
  | some (.arrayValue _) => .ARRAY

/-- Modelled from the spec: StringVal returns the string payload, and the
zero value "" on any mismatched type (permissive-read policy; pinned by
TestAttributeMapWithNilValues: StringVal of a NULL value is ""). -/
def stringVal : AttributeValue → String
  | some (.stringValue s) => s
  | _ => ""

/-- Modelled from the spec: IntVal returns the int64 payload, 0 on
mismatch. -/
def intVal : AttributeValue → Int
  | some (.intValue i) => i
  | _ => 0

/-- Modelled from the spec: DoubleVal returns the double payload (carried
opaquely), zero on mismatch. -/
def doubleVal : AttributeValue → Int
  | some (.doubleValue d) => d
  | _ => 0

/-- Modelled from the spec: BoolVal returns the bool payload, false on
mismatch. -/
def boolVal : AttributeValue → Bool
  | some (.boolValue b) => b
  | _ => false

/-- Modelled from the spec: MapVal returns the nested map payload, and the
empty map on any mismatched type. -/
def mapVal : AttributeValue → List (String × AnyValue)
  | some (.kvlistValue kvs) => kvs
  | _ => []

/-! ## AttributeMap and StringMap (pdata common)

Modelled from the spec: an AttributeMap is a wrapper over a pointer to a
slice of nullable KeyValue entries; Len reports the length of the backing
slice including nil placeholders, while traversal skips nils
(pinned by TestAttributeMap_ForEach_WithNils: 6 entries and 7 nils give
Len 13 and exactly 6 callback invocations). -/
abbrev RawAttributeMap := List (Option KeyValue)

/-- Modelled from the spec: AttributeMap.Len returns the length of the
backing slice, nil placeholders included. -/
def attributeMapLen (m : RawAttributeMap) : Nat := m.length

/-- Modelled from the spec: AttributeMap.ForEach walks the backing slice in
order and invokes the callback once per non-nil entry, skipping nil
placeholders.  The embedding returns the sequence of callback arguments. -/
def attributeMapForEachCalls : RawAttributeMap → List (String × AttributeValue)
  | [] => []
  | none :: rest => attributeMapForEachCalls rest
  | some kv :: rest => (kv.key, kv.value) :: attributeMapForEachCalls rest

/-- Number of non-nil entries of a backing slice. -/
def countSome (m : List (Option α)) : Nat := (m.filter fun e => e.isSome).length

/-- Number of nil placeholders of a backing slice. -/
def countNone (m : List (Option α)) : Nat := (m.filter fun e => e.isNone).length

/-- Modelled from the spec: a StringMap wire entry (otlpcommon.StringKeyValue). -/
structure StringKeyValue where
  key : String
  value : String

/-- Modelled from the spec: a StringMap is a wrapper over a pointer to a
slice of nullable StringKeyValue entries. -/
abbrev RawStringMap := List (Option StringKeyValue)

/-- Modelled from the spec: StringMap.Len returns the length of the backing
slice, nil placeholders included. -/
def stringMapLen (m : RawStringMap) : Nat := m.length

/-- Modelled from the spec: StringMap.ForEach invokes its callback once per
non-nil entry in order, skipping nil placeholders
(pinned by TestStringMap_ForEach_WithNils). -/
def stringMapForEachCalls : RawStringMap → List (String × String)
  | [] => []
  | none :: rest => stringMapForEachCalls rest
  | some kv :: rest => (kv.key, kv.value) :: stringMapForEachCalls rest

/-! ## A store of mutable cells

Go objects reachable through pointers are modelled as cells in a store;
a reference is an index into the store.  This makes aliasing and in-place
mutation — the properties the fan-out and CopyTo claims are about —
expressible in a pure embedding. -/

/-- A store of mutable cells addressed by natural-number references. -/
structure Store (α : Type) where
  cells : List α

/-- Read the cell at reference r (default value if out of range, standing
for a dereference that the Go code never performs on a valid reference). -/
def Store.get [Inhabited α] (s : Store α) (r : Nat) : α := s.cells.getD r default

/-- Overwrite the cell at reference r in place. -/
def Store.set (s : Store α) (r : Nat) (v : α) : Store α := ⟨s.cells.set r v⟩

/-- Allocate a fresh cell holding v; returns the new store and the fresh
reference. -/
def Store.alloc (s : Store α) (v : α) : Store α × Nat :=
  (⟨s.cells ++ [v]⟩, s.cells.length)

instance : Inhabited KeyValue := ⟨⟨"", none⟩⟩

/-! ## AttributeMap CopyTo (pdata common)

Modelled from the spec: CopyTo between differently-sized maps always
produces a destination whose length equals the source's and performs a deep
copy — per the spec's design note, a structural walk that "allocates fresh
nested containers at every level that can be mutated independently", so no
mutable state is shared between source and destination
(pinned by TestAttributeMap_CopyTo / TestStringMap_CopyTo: copying to an
empty, smaller, equal-sized or twice into the same destination always
leaves the destination deep-equal to the source).

A live AttributeMap is a list of nullable references to KeyValue cells in
the store (the backing slice of pointers). -/
abbrev MapRef := List (Option Nat)

/-- The references held by a map's backing slice (its non-nil pointers). -/
def refsOf (m : MapRef) : List Nat := m.filterMap id

/-- A map is well formed in a store when every reference it holds points at
an existing cell. -/
def WfMap (s : Store KeyValue) (m : MapRef) : Prop :=
  ∀ r ∈ refsOf m, r < s.cells.length

instance (s : Store KeyValue) (m : MapRef) : Decidable (WfMap s m) :=
  List.decidableBAll _ _

/-- The contents a map presents: each non-nil entry resolved through the
store. -/
def resolveMap (s : Store KeyValue) (m : MapRef) : RawAttributeMap :=
  m.map fun e => e.map fun r => s.get r

/-- Modelled from the spec: the allocation walk of CopyTo — every non-nil
source entry is deep-copied into a freshly allocated cell, nil placeholders
are copied as nil. -/
def copyToAlloc : Store KeyValue → MapRef → Store KeyValue × MapRef
  | s, [] => (s, [])
  | s, none :: rest =>
    let p := copyToAlloc s rest
    (p.1, none :: p.2)
  | s, some r :: rest =>
    let a := s.alloc (s.get r)
    let p := copyToAlloc a.1 rest
    (p.1, some a.2 :: p.2)

/-- Modelled from the spec: a.CopyTo(b) rebinds the destination b to a deep
copy of a; b's prior entries do not influence the result (its length
becomes the source's regardless of its prior size). -/
def copyToMap (s : Store KeyValue) (src : MapRef) (priorDest : MapRef) :
    Store KeyValue × MapRef :=
  let _ := priorDest
  copyToAlloc s src

/-! ## AttributeMap mutation operations (pdata common)

Modelled from the spec: an AttributeMap maintains key uniqueness; Get finds
an entry by key, Delete removes it, Insert adds only when absent, Update
overwrites only when present, Upsert always stores.  Traversal skips nil
placeholders. -/

/-- Modelled from the spec: AttributeMap.Get returns the value of the first
non-nil entry with the given key, and reports whether one exists. -/
def attributeMapGet : RawAttributeMap → String → Option AttributeValue
  | [], _ => none
  | none :: rest, k => attributeMapGet rest k
  | some kv :: rest, k =>
    if kv.key = k then some kv.value else attributeMapGet rest k

/-- Modelled from the spec: AttributeMap.Delete removes the entry with the
given key when present. -/
def attributeMapDelete : RawAttributeMap → String → RawAttributeMap
  | [], _ => []
  | none :: rest, k => none :: attributeMapDelete rest k
  | some kv :: rest, k =>
    if kv.key = k then rest else some kv :: attributeMapDelete rest k

/-- Modelled from the spec: AttributeMap.Update overwrites the value of an
existing entry in place; a missing key is a no-op. -/
def attributeMapUpdate : RawAttributeMap → String → AttributeValue → RawAttributeMap
  | [], _, _ => []
  | none :: rest, k, v => none :: attributeMapUpdate rest k v
  | some kv :: rest, k, v =>
    if kv.key = k then some ⟨k, v⟩ :: rest else some kv :: attributeMapUpdate rest k v

/-- Modelled from the spec: AttributeMap.Insert appends a new entry only
when the key is absent. -/
def attributeMapInsert (m : RawAttributeMap) (k : String) (v : AttributeValue) :
    RawAttributeMap :=
  match attributeMapGet m k with
  | some _ => m
  | none => m ++ [some ⟨k, v⟩]

/-- Modelled from the spec: AttributeMap.Upsert updates an existing entry or
appends a new one. -/
def attributeMapUpsert (m : RawAttributeMap) (k : String) (v : AttributeValue) :
    RawAttributeMap :=
  match attributeMapGet m k with
  | some _ => attributeMapUpdate m k v
  | none => m ++ [some ⟨k, v⟩]

/-! ## The attributes processor

Embedded from src/processor/attributesprocessor/attributes.go.  The pieces
the processor takes from excluded collaborator packages — the compiled
regular expression (Go regexp.FindStringSubmatch), the SHA1 hasher, the
filterspan matchers and processor.ServiceNameForResource — are carried as
opaque functions, since their source is out of the embedded core. -/

/-- A span: the attributes processor reads and mutates its attribute map. -/
structure Span where
  attributes : RawAttributeMap

/-- One InstrumentationLibrarySpans entry: a slice of nullable spans. -/
structure InstrumentationLibrarySpans where
  spans : List (Option Span)

/-- One ResourceSpans entry: an optional resource (its attribute map) and a
slice of nullable InstrumentationLibrarySpans. -/
structure ResourceSpans where
  resource : Option RawAttributeMap
  ilss : List (Option InstrumentationLibrarySpans)

/-- A trace batch: a slice of nullable ResourceSpans. -/
abbrev Traces := List (Option ResourceSpans)

/-- The action variants of the attributes processor (DELETE, INSERT,
UPDATE, UPSERT, HASH, EXTRACT). -/
inductive Action where
  | DELETE
  | INSERT
  | UPDATE
  | UPSERT
  | HASH
  | EXTRACT
deriving DecidableEq, Repr

/-- One attributeAction from attributes.go: key, source attribute, compiled
regex (as its FindStringSubmatch behaviour), extracted attribute names,
the action tag and an optional configured value. -/
structure AttributeAction where
  key : String
  fromAttribute : String
  regexFind : String → Option (List String)
  attrNames : List String
  action : Action
  attributeValue : Option AttributeValue

/-- A filterspan matcher: MatchSpan over a span and its service name. -/
def Matcher := Span → String → Bool

/-- The attributesConfig from attributes.go: converted actions plus the
optional include and exclude matchers. -/
structure AttributesConfig where
  actions : List AttributeAction
  includeMatcher : Option Matcher
  excludeMatcher : Option Matcher

/-- A downstream trace consumer: its ConsumeTraces behaviour as a function
from the batch content it reads to the error it returns (none = nil). -/
structure NextTraceConsumer where
  onConsumeTraces : Traces → Option String

/-- The attributesProcessor struct from attributes.go. -/
structure AttributesProcessor where
  nextConsumer : NextTraceConsumer
  config : AttributesConfig

/-- The typed construction errors of componenterror used here. -/
inductive ComponentError where
  | errNilNextConsumer
deriving DecidableEq, Repr

/-- Embedded from attributes.go newTraceProcessor: a nil next consumer is
rejected at construction time with ErrNilNextConsumer and no component;
otherwise the processor is assembled. -/
def newTraceProcessor (nextConsumer : Option NextTraceConsumer)
    (config : AttributesConfig) : Except ComponentError AttributesProcessor :=
  match nextConsumer with
  | none => .error .errNilNextConsumer
  | some nc => .ok ⟨nc, config⟩

/-- A zipkin receiver as far as construction is concerned. -/
structure ZipkinReceiver where
  address : String
  nextConsumer : NextTraceConsumer

/-- Modelled from the spec: zipkinreceiver.New (implementation not under
src/) rejects a nil next consumer at construction time with
ErrNilNextConsumer and a nil component (pinned by TestNew in the zipkin
receiver tests: args with nil nextConsumer expect exactly
componenterror.ErrNilNextConsumer and a nil receiver). -/
def zipkinNew (address : String) (nextConsumer : Option NextTraceConsumer) :
    Except ComponentError ZipkinReceiver :=
  match nextConsumer with
  | none => .error .errNilNextConsumer
  | some nc => .ok ⟨address, nc⟩

/-- The external collaborators of the processor: the SHA1 attribute hasher
and processor.ServiceNameForResource. -/
structure ProcessorEnv where
  sha1Hasher : AttributeValue → AttributeValue
  serviceNameForResource : Option RawAttributeMap → String

/-- Embedded from attributes.go getSourceAttributeValue: a configured value
wins, otherwise the value is read from the FromAttribute key. -/
def getSourceAttributeValue (action : AttributeAction) (attrs : RawAttributeMap) :
    Option AttributeValue :=
  match action.attributeValue with
  | some v => some v
  | none => attributeMapGet attrs action.fromAttribute

/-- Embedded from attributes.go hashAttribute: when the key exists its value
is replaced in place by its SHA1 hash. -/
def hashAttribute (env : ProcessorEnv) (action : AttributeAction)
    (attrs : RawAttributeMap) : RawAttributeMap :=
  match attributeMapGet attrs action.key with
  | some v => attributeMapUpdate attrs action.key (env.sha1Hasher v)
  | none => attrs

/-- Embedded from attributes.go extractAttributes: extraction only applies
to an existing string-typed value; each submatch starting from index 1 is
upserted under the corresponding extracted attribute name. -/
def extractAttributes (action : AttributeAction) (attrs : RawAttributeMap) :
    RawAttributeMap :=
  match attributeMapGet attrs action.key with
  | none => attrs
  | some v =>
    if attrType v ≠ .STRING then attrs
    else
      match action.regexFind (stringVal v) with
      | none => attrs
      | some ms =>
        ((List.range ms.length).drop 1).foldl
          (fun acc i =>
            attributeMapUpsert acc (action.attrNames.getD i "")
              (some (.stringValue (ms.getD i ""))))
          attrs

/-- Embedded from attributes.go processSpan: the switch over the action tag
applied to the span's attribute map. -/
def applyAction (env : ProcessorEnv) (action : AttributeAction)
    (attrs : RawAttributeMap) : RawAttributeMap :=
  match action.action with
  | .DELETE => attributeMapDelete attrs action.key
  | .INSERT =>
    match getSourceAttributeValue action attrs with
    | none => attrs
    | some av => attributeMapInsert attrs action.key av
  | .UPDATE =>
    match getSourceAttributeValue action attrs with
    | none => attrs
    | some av => attributeMapUpdate attrs action.key av
  | .UPSERT =>
    match getSourceAttributeValue action attrs with
    | none => attrs
    | some av => attributeMapUpsert attrs action.key av
  | .HASH => hashAttribute env action attrs
  | .EXTRACT => extractAttributes action attrs

/-- Embedded from attributes.go skipSpan, exclude part: a matching exclude
matcher skips the span. -/
def excludeSkip (cfg : AttributesConfig) (span : Span) (serviceName : String) :
    Bool :=
  match cfg.excludeMatcher with
  | some m => m span serviceName
  | none => false

/-- Embedded from attributes.go skipSpan: include properties are checked
before exclude settings. -/
def skipSpan (cfg : AttributesConfig) (span : Span) (serviceName : String) :
    Bool :=
  match cfg.includeMatcher with
  | some m =>
    if m span serviceName then excludeSkip cfg span serviceName else true
  | none => excludeSkip cfg span serviceName

/-- Embedded from attributes.go processSpan: a nil span returns without
effect; a skipped span is untouched; otherwise every configured action is
applied in order to the span's attributes. -/
def processSpan (env : ProcessorEnv) (a : AttributesProcessor)
    (span : Option Span) (serviceName : String) : Option Span :=
  match span with
  | none => none
  | some sp =>
    if skipSpan a.config sp serviceName then some sp
    else
      some { sp with
        attributes :=
          a.config.actions.foldl (fun attrs act => applyAction env act attrs)
            sp.attributes }

/-- Embedded from attributes.go ConsumeTraces, inner loop: a nil
InstrumentationLibrarySpans entry is skipped; otherwise every span slot is
handed to processSpan. -/
def processIls (env : ProcessorEnv) (a : AttributesProcessor)
    (serviceName : String) :
    Option InstrumentationLibrarySpans → Option InstrumentationLibrarySpans
  | none => none
  | some ils =>
    some { ils with
      spans := ils.spans.map fun sp => processSpan env a sp serviceName }

/-- Embedded from attributes.go ConsumeTraces, outer loop: a nil
ResourceSpans entry is skipped; otherwise the service name is resolved from
its resource and its InstrumentationLibrarySpans are walked. -/
def processResourceSpans (env : ProcessorEnv) (a : AttributesProcessor) :
    Option ResourceSpans → Option ResourceSpans
  | none => none
  | some rs =>
    let serviceName := env.serviceNameForResource rs.resource
    some { rs with ilss := rs.ilss.map (processIls env a serviceName) }

/-- Embedded from attributes.go ConsumeTraces: the in-place transformation
the traversal performs on the batch content. -/
def processBatch (env : ProcessorEnv) (a : AttributesProcessor) (td : Traces) :
    Traces :=
  td.map (processResourceSpans env a)

/-- Outcome of one ConsumeTraces call: the store after the in-place
mutation, the references handed to the next consumer (in order), and the
returned error. -/
structure ConsumeOutcome where
  store : Store Traces
  callRefs : List Nat
  result : Option String

/-- Embedded from attributes.go ConsumeTraces: the batch cell is mutated in
place by the traversal and then the very same reference is handed to the
next consumer exactly once; the call returns whatever the next consumer
returns. -/
def consumeTraces (env : ProcessorEnv) (a : AttributesProcessor)
    (s : Store Traces) (r : Nat) : ConsumeOutcome :=
  let s1 := s.set r (processBatch env a (s.get r))
  { store := s1
    callRefs := [r]
    result := a.nextConsumer.onConsumeTraces (s1.get r) }

/-- The capability record reported by processors. -/
structure ProcessorCapabilities where
  mutatesConsumedData : Bool
deriving DecidableEq, Repr

/-- Embedded from attributes.go GetCapabilities: the attributes processor
always declares MutatesConsumedData true. -/
def getCapabilities (_ : AttributesProcessor) : ProcessorCapabilities :=
  ⟨true⟩

/-! ## The fan-out consumer

Modelled from the spec: when one receiver feeds N downstream consumer
chains, on receiving a batch the fan-out consumer passes a deep copy of the
batch (via the data model's CopyTo) to the first N-1 targets and the
original batch to the last target; delivery is sequential, original last
(spec sections 4.3 and 5).  Trace batches live in a store of cells so that
copies versus the original, and in-place mutation by a chain, are
observable. -/

/-- One downstream consumer chain as the fan-out sees it: the in-place
transformation its processors perform, and the exporters that observe the
processed batch at the end of the chain. -/
structure Chain where
  process : Traces → Traces
  exporters : List String

/-- Modelled from the spec: the references the fan-out consumer delivers
for n targets: n-1 freshly allocated deep copies of the batch in cell r,
then the original reference r last. -/
def fanoutRefs (s : Store Traces) (r : Nat) (n : Nat) : Store Traces × List Nat :=
  let b := s.get r
  (⟨s.cells ++ List.replicate (n - 1) b⟩,
    ((List.range (n - 1)).map fun i => s.cells.length + i) ++ [r])

/-- Sequential delivery: each chain reads its cell, mutates it in place with
its own processing, and its exporters observe the processed content.  The
observation log pairs each exporter with the content it observed. -/
def deliverChains : Store Traces → List (Nat × Chain) →
    Store Traces × List (String × Traces)
  | s, [] => (s, [])
  | s, (r, c) :: rest =>
    let processed := c.process (s.get r)
    let s1 := s.set r processed
    let p := deliverChains s1 rest
    (p.1, (c.exporters.map fun e => (e, processed)) ++ p.2)

/-- Modelled from the spec: one fan-out ConsumeTraces call over the batch in
cell r: allocate the copies, then deliver to every chain in order.  Returns
the final store, the delivered references (copies first, original last) and
the observation log. -/
def fanoutConsumeTraces (s : Store Traces) (r : Nat) (chains : List Chain) :
    Store Traces × List Nat × List (String × Traces) :=
  let fr := fanoutRefs s r chains.length
  let d := deliverChains fr.1 (fr.2.zip chains)
  (d.1, fr.2, d.2)

/-! ## The receivers builder

Modelled from the spec: the receivers builder constructs one live receiver
instance per distinct receiver configuration, determining the union of data
types it must support by scanning all pipelines that reference it and
calling the type-specific creation method for each (spec section 4.4).
Where the spec and the repository's own tests disagree, the model follows
the tests; each such point is noted. -/

/-- The telemetry data types a pipeline is tagged with. -/
inductive DataType where
  | traces
  | metrics
  | logs
deriving DecidableEq, BEq, Repr

/-- One configured pipeline: its data type, the receiver config names that
feed it and the exporter config names it outputs to. -/
structure PipelineCfg where
  inputType : DataType
  receivers : List String
  exporters : List String
deriving DecidableEq, BEq, Repr

/-- The post-parse configuration the builder consumes: declared receiver
config names plus the named pipelines. -/
structure ServiceConfig where
  receivers : List String
  pipelines : List PipelineCfg
deriving DecidableEq, Repr

/-- Outcome of one factory creation call for one data type. -/
inductive CreateResult where
  | ok
  | errDataTypeIsNotSupported
  | nilWithoutError
  | errOther (msg : String)
deriving DecidableEq, Repr

/-- The receiver factories: each (receiver config, data type) pair has a
creation outcome. -/
structure ReceiverFactories where
  create : String → DataType → CreateResult

/-- The build-time errors the receivers builder can return.  The internal
errUnusedReceiver is not among them: it is consumed inside Build
(the receiver is skipped with a log line). -/
inductive BuildError where
  | dataTypeMismatch (receiverName : String) (dt : DataType)
  | nilReceiver (receiverName : String) (dt : DataType)
  | creationFailed (receiverName : String) (dt : DataType) (msg : String)
deriving DecidableEq, Repr

/-- The pipelines that reference a receiver config. -/
def pipelinesReferencing (cfg : ServiceConfig) (rcv : String) : List PipelineCfg :=
  cfg.pipelines.filter fun p => p.receivers.contains rcv

/-- The pipelines of one data type that reference a receiver config. -/
def pipelinesFor (cfg : ServiceConfig) (rcv : String) (dt : DataType) :
    List PipelineCfg :=
  cfg.pipelines.filter fun p => p.inputType == dt && p.receivers.contains rcv

/-- Modelled from the spec: the creation step for one data type.  The
type-specific creation method is called only when some pipeline of that
data type references the receiver.  A typed unsupported-data-type answer
for a demanded type is a configuration error that fails the build (pinned
by TestReceiversBuilder_DataTypeError: a receiver attached to a traces
pipeline whose factory rejects traces makes Build return an error and nil
receivers); a nil component without an error is an integrity error (pinned
by TestReceiversBuilder_ErrorOnNilReceiver). -/
def checkCreate (f : ReceiverFactories) (cfg : ServiceConfig) (rcv : String)
    (dt : DataType) : Except BuildError Unit :=
  if (pipelinesFor cfg rcv dt).isEmpty then .ok ()
  else
    match f.create rcv dt with
    | .ok => .ok ()
    | .errDataTypeIsNotSupported => .error (.dataTypeMismatch rcv dt)
    | .nilWithoutError => .error (.nilReceiver rcv dt)
    | .errOther msg => .error (.creationFailed rcv dt msg)

/-- One built receiver: a single component instance keyed by its config,
with one consumer binding per data type it was attached for (the pipelines
wired behind each binding). -/
structure BuiltReceiver where
  name : String
  attachedTraces : List PipelineCfg
  attachedMetrics : List PipelineCfg
  attachedLogs : List PipelineCfg
deriving DecidableEq, Repr

/-- Modelled from the spec: building one receiver config.  A receiver
referenced by no pipeline raises the internal errUnusedReceiver, which
Build consumes by skipping the receiver (none here) instead of failing
(pinned by TestReceiversBuilder_Unused, which asserts Build succeeds on a
config declaring an unused receiver); otherwise the type-specific creation
method runs for every demanded data type and the single instance is wired
to each data type's pipelines. -/
def buildReceiver (f : ReceiverFactories) (cfg : ServiceConfig) (rcv : String) :
    Except BuildError (Option BuiltReceiver) :=
  if (pipelinesReferencing cfg rcv).isEmpty then .ok none
  else
    match checkCreate f cfg rcv .traces with
    | .error e => .error e
    | .ok _ =>
      match checkCreate f cfg rcv .metrics with
      | .error e => .error e
      | .ok _ =>
        match checkCreate f cfg rcv .logs with
        | .error e => .error e
        | .ok _ => .ok (some
            { name := rcv
              attachedTraces := pipelinesFor cfg rcv .traces
              attachedMetrics := pipelinesFor cfg rcv .metrics
              attachedLogs := pipelinesFor cfg rcv .logs })

/-- Modelled from the spec: building a list of receiver configs in order,
stopping at the first build error, skipping unused receivers. -/
def buildList (f : ReceiverFactories) (cfg : ServiceConfig) :
    List String → Except BuildError (List BuiltReceiver)
  | [] => .ok []
  | rcv :: rest =>
    match buildReceiver f cfg rcv with
    | .error e => .error e
    | .ok b =>
      match buildList f cfg rest with
      | .error e => .error e
      | .ok bs =>
        match b with
        | none => .ok bs
        | some br => .ok (br :: bs)

/-- Modelled from the spec: NewReceiversBuilder(...).Build() over all
declared receiver configs. -/
def buildAllReceivers (f : ReceiverFactories) (cfg : ServiceConfig) :
    Except BuildError (List BuiltReceiver) :=
  buildList f cfg cfg.receivers

/-- The consumer chain a pipeline presents to a receiver binding for
delivery accounting: the processed batch is observed by the pipeline's
exporters.  Processor transformations are not what the sharing claim
measures, so the chain carries the identity transformation. -/
def pipelineChain (p : PipelineCfg) : Chain :=
  ⟨id, p.exporters⟩

/-- Sending one trace batch through a built receiver's trace binding: the
entry consumer fans the batch out to the attached trace pipelines (for a
single pipeline this degenerates to direct delivery of the original). -/
def receiverConsumeTraces (s : Store Traces) (r : Nat) (br : BuiltReceiver) :
    Store Traces × List Nat × List (String × Traces) :=
  fanoutConsumeTraces s r (br.attachedTraces.map pipelineChain)

/-- Helper for reasoning about Build: the instance (if any) one receiver
config contributes when its own build step succeeds. -/
def builtFor (f : ReceiverFactories) (cfg : ServiceConfig) (n : String) :
    Option BuiltReceiver :=
  match buildReceiver f cfg n with
  | .ok o => o
  | .error _ => none

/-! ## Concrete instances used by witnesses and counterexamples -/

/-- The traces pipeline of the unused-receiver scenario
(testdata/unused_receiver.yaml): examplereceiver feeding exampleexporter. -/
def tracesPipelineEx : PipelineCfg :=
  ⟨.traces, ["examplereceiver"], ["exampleexporter"]⟩

/-- The unused-receiver configuration: zipkin is declared but referenced by
no pipeline. -/
def unusedReceiverCfg : ServiceConfig :=
  ⟨["examplereceiver", "zipkin"], [tracesPipelineEx]⟩

/-- Factories whose every creation call succeeds. -/
def okFactories : ReceiverFactories := ⟨fun _ _ => .ok⟩

/-- The configuration of TestReceiversBuilder_DataTypeError: examplereceiver
is attached to a traces pipeline. -/
def pipelinesBuilderCfg : ServiceConfig :=
  ⟨["examplereceiver"], [tracesPipelineEx]⟩

/-- Factories in which examplereceiver reports the typed unsupported error
for trace data (the FailTraceCreation flag of the test). -/
def failTraceFactories : ReceiverFactories :=
  ⟨fun rcv dt =>
    if rcv == "examplereceiver" && dt == .traces then .errDataTypeIsNotSupported
    else .ok⟩

/-- A traces pipeline and a metrics pipeline sharing one receiver config. -/
def sharedTracesPipeline : PipelineCfg :=
  ⟨.traces, ["examplereceiver"], ["exampleexporter"]⟩

/-- The metrics half of the shared-receiver scenario. -/
def sharedMetricsPipeline : PipelineCfg :=
  ⟨.metrics, ["examplereceiver"], ["exampleexporter/2"]⟩

/-- One receiver config referenced by a traces pipeline and a separate
metrics pipeline. -/
def sharedReceiverCfg : ServiceConfig :=
  ⟨["examplereceiver"], [sharedTracesPipeline, sharedMetricsPipeline]⟩

/-- A small concrete span with one string attribute. -/
def exampleSpan : Span := ⟨[some ⟨"k", some (.stringValue "v")⟩]⟩

/-- A small concrete trace batch. -/
def exampleBatch : Traces := [some ⟨none, [some ⟨[some exampleSpan]⟩]⟩]

/-- The fan-out scenario of the multi-receiver-multi-exporter test case: two
trace pipelines, the first exporting to exampleexporter, the second to both
exampleexporter and exampleexporter/2. -/
def exampleChains : List Chain :=
  [⟨id, ["exampleexporter"]⟩, ⟨id, ["exampleexporter", "exampleexporter/2"]⟩]

/-- The backing slice of TestAttributeMap_ForEach_WithNils: six real entries
interspersed with seven nil placeholders. -/
def exampleNilsAttrMap : RawAttributeMap :=
  [none, some ⟨"k_string", some (.stringValue "123")⟩,
   none, some ⟨"k_int", some (.intValue 123)⟩,
   none, some ⟨"k_double", some (.doubleValue 123)⟩,
   none, some ⟨"k_bool", some (.boolValue true)⟩,
   none, some ⟨"k_null", none⟩,
   none, some ⟨"k_null2", none⟩,
   none]

/-- The backing slice of TestStringMap_ForEach_WithNils: three real entries
interspersed with four nil placeholders. -/
def exampleNilsStringMap : RawStringMap :=
  [none, some ⟨"k0", "v0"⟩, none, some ⟨"k1", "v1"⟩, none, some ⟨"k2", "v2"⟩, none]

/-- A concrete attribute cell store for the CopyTo witness. -/
def exampleCellStore : Store KeyValue :=
  ⟨[⟨"a", some (.stringValue "1")⟩, ⟨"b", none⟩]⟩

/-- A concrete source map over exampleCellStore. -/
def exampleSrcMap : MapRef := [some 0, none, some 1]

/-- A concrete prior destination map of a different size. -/
def examplePriorDest : MapRef := [some 0]

/-- A concrete processor environment (identity hasher, constant service
name). -/
def exampleEnv : ProcessorEnv := ⟨id, fun _ => "svc"⟩

/-- A concrete attributes processor with no actions and no matchers, whose
next consumer always accepts. -/
def exampleProcessor : AttributesProcessor :=
  ⟨⟨fun _ => none⟩, ⟨[], none, none⟩⟩

/-! ## Helper lemmas -/

/-- Reading any other index is unaffected by List.set. -/
theorem getD_set_ne {α : Type} (v d : α) :
    ∀ (l : List α) (i j : Nat), i ≠ j → (l.set i v).getD j d = l.getD j d
  | [], _, _, _ => rfl
  | _ :: _, 0, 0, h => absurd rfl h
  | _ :: _, 0, _ + 1, _ => rfl
  | _ :: _, _ + 1, 0, _ => rfl
  | x :: xs, i + 1, j + 1, h => by
    have hne : i ≠ j := fun hh => h (by rw [hh])
    simpa [List.getD_cons_succ] using getD_set_ne v d xs i j hne

/-- Splitting a nullable slice's length into its non-nil and nil counts. -/
theorem length_eq_countSome_add_countNone {α : Type} (m : List (Option α)) :
    m.length = countSome m + countNone m := by
  induction m with
  | nil => rfl
  | cons x rest ih =>
    cases x <;> simp [countSome, countNone, List.filter_cons] at * <;> omega

/-- ForEach over an AttributeMap invokes its callback once per non-nil
entry. -/
theorem attributeMapForEachCalls_length (m : RawAttributeMap) :
    (attributeMapForEachCalls m).length = countSome m := by
  induction m with
  | nil => rfl
  | cons x rest ih =>
    cases x <;> simp [attributeMapForEachCalls, countSome, List.filter_cons] at *
      <;> omega

/-- ForEach over a StringMap invokes its callback once per non-nil entry. -/
theorem stringMapForEachCalls_length (m : RawStringMap) :
    (stringMapForEachCalls m).length = countSome m := by
  induction m with
  | nil => rfl
  | cons x rest ih =>
    cases x <;> simp [stringMapForEachCalls, countSome, List.filter_cons] at *
      <;> omega

/-- Mapping a nil-preserving function over a nullable slice preserves nil
slots (getD view). -/
theorem getD_map_none {α β : Type} (f : Option α → Option β) (hf : f none = none)
    (l : List (Option α)) (i : Nat) (h : l.getD i none = none) :
    (l.map f).getD i none = none := by
  rcases h' : l[i]? with _ | el
  · simp [List.getD_eq_getElem?_getD, List.getElem?_map, h']
  · have hel : el = none := by
      simpa [List.getD_eq_getElem?_getD, h'] using h
    simp [List.getD_eq_getElem?_getD, List.getElem?_map, h', hel, hf]

/-! ## Claim theorems -/

/-- C6: for every AttributeMap or StringMap whose backing slice contains k
non-nil entries interspersed with j nil placeholder pointers, Len() returns
k + j (counting the nils), while ForEach invokes its callback exactly k
times — once per non-nil entry and never for a nil placeholder — and the
traversal never fails. -/
theorem C6_len_counts_nils_forEach_skips_them (m : RawAttributeMap)
    (sm : RawStringMap) (k j ks js : Nat)
    (h1 : countSome m = k) (h2 : countNone m = j)
    (h3 : countSome sm = ks) (h4 : countNone sm = js) :
    attributeMapLen m = k + j ∧ (attributeMapForEachCalls m).length = k ∧
    stringMapLen sm = ks + js ∧ (stringMapForEachCalls sm).length = ks := by
  refine ⟨?_, ?_, ?_, ?_⟩
  · rw [attributeMapLen, length_eq_countSome_add_countNone, h1, h2]
  · rw [attributeMapForEachCalls_length, h1]
  · rw [stringMapLen, length_eq_countSome_add_countNone, h3, h4]
  · rw [stringMapForEachCalls_length, h3]

/-- Witness for C6: the backing slices of the ForEach_WithNils tests — six
real attribute entries among seven nils give Len 13 and six callback
invocations; three string entries among four nils give Len 7 and three
invocations. -/
theorem C6_len_counts_nils_forEach_skips_them_witness :
    countSome exampleNilsAttrMap = 6 ∧ countNone exampleNilsAttrMap = 7 ∧
    countSome exampleNilsStringMap = 3 ∧ countNone exampleNilsStringMap = 4 ∧
    (attributeMapLen exampleNilsAttrMap = 6 + 7 ∧
      (attributeMapForEachCalls exampleNilsAttrMap).length = 6 ∧
      stringMapLen exampleNilsStringMap = 3 + 4 ∧
      (stringMapForEachCalls exampleNilsStringMap).length = 3) :=
  ⟨rfl, rfl, rfl, rfl,
    C6_len_counts_nils_forEach_skips_them exampleNilsAttrMap
      exampleNilsStringMap 6 7 3 4 rfl rfl rfl rfl⟩

/-- C8: for every AttributeValue, calling a type-specific getter whose type
does not match Type() returns the zero value of the requested type and
never fails; in particular, for a value of type NULL (including one backed
by a nil or value-less wire entry), StringVal() returns the empty
string. -/
theorem C8_mismatched_getters_return_zero_values (v : AttributeValue) :
    (attrType v ≠ .STRING → stringVal v = "") ∧
    (attrType v ≠ .INT → intVal v = 0) ∧
    (attrType v ≠ .DOUBLE → doubleVal v = 0) ∧
    (attrType v ≠ .BOOL → boolVal v = false) ∧
    (attrType v ≠ .MAP → mapVal v = []) ∧
    (attrType v = .NULL → stringVal v = "") ∧
    (v = none → attrType v = .NULL ∧ stringVal v = "") := by
  rcases v with _ | av
  · simp [attrType, stringVal, intVal, doubleVal, boolVal, mapVal]
  · cases av <;>
      simp [attrType, stringVal, intVal, doubleVal, boolVal, mapVal]

/-- Witness for C8: a nil-backed value has type NULL, and every getter
returns the zero value on it. -/
theorem C8_mismatched_getters_return_zero_values_witness :
    attrType (none : AttributeValue) ≠ .STRING ∧
    stringVal (none : AttributeValue) = "" ∧
    intVal (none : AttributeValue) = 0 ∧
    doubleVal (none : AttributeValue) = 0 ∧
    boolVal (none : AttributeValue) = false ∧
    mapVal (none : AttributeValue) = [] ∧
    attrType (none : AttributeValue) = .NULL :=
  ⟨by decide,
    (C8_mismatched_getters_return_zero_values none).1 (by decide),
    (C8_mismatched_getters_return_zero_values none).2.1 (by decide),
    (C8_mismatched_getters_return_zero_values none).2.2.1 (by decide),
    (C8_mismatched_getters_return_zero_values none).2.2.2.1 (by decide),
    (C8_mismatched_getters_return_zero_values none).2.2.2.2.1 (by decide),
    ((C8_mismatched_getters_return_zero_values none).2.2.2.2.2.2 rfl).1⟩

/-- C5: constructing a pipeline stage with a nil next consumer — the
attributes processor's newTraceProcessor as embedded from attributes.go,
and zipkinreceiver.New as pinned by its TestNew — returns the typed
ErrNilNextConsumer together with no component, so the fault is detected at
construction (build) time; a non-nil next consumer constructs normally. -/
theorem C5_nil_next_consumer_rejected_at_construction :
    (∀ config, newTraceProcessor none config
        = .error ComponentError.errNilNextConsumer) ∧
    (∀ address, zipkinNew address none
        = .error ComponentError.errNilNextConsumer) ∧
    (∀ config nc, newTraceProcessor (some nc) config = .ok ⟨nc, config⟩) ∧
    (∀ address nc, zipkinNew address (some nc) = .ok ⟨address, nc⟩) :=
  ⟨fun _ => rfl, fun _ => rfl, fun _ _ => rfl, fun _ _ => rfl⟩

/-- C9: the attributes processor's traversal skips every nil element at
every level — nil ResourceSpans, nil InstrumentationLibrarySpans and nil
Span slots are left in place untouched, lengths are preserved, and
processSpan returns without effect on a nil span; the traversal itself is a
total function (it never fails on a nil element). -/
theorem C9_traversal_skips_nil_elements (env : ProcessorEnv)
    (a : AttributesProcessor) :
    (∀ sn, processSpan env a none sn = none) ∧
    (∀ sn, processIls env a sn none = none) ∧
    (processResourceSpans env a none = none) ∧
    (∀ td : Traces, (processBatch env a td).length = td.length) ∧
    (∀ (td : Traces) (i : Nat), td.getD i none = none →
      (processBatch env a td).getD i none = none) ∧
    (∀ (spans : List (Option Span)) (sn : String) (i : Nat),
      spans.getD i none = none →
      (spans.map fun sp => processSpan env a sp sn).getD i none = none) ∧
    (∀ td1 td2 : Traces, processBatch env a (td1 ++ none :: td2)
        = processBatch env a td1 ++ none :: processBatch env a td2) := by
  refine ⟨fun _ => rfl, fun _ => rfl, rfl, ?_, ?_, ?_, ?_⟩
  · intro td; simp [processBatch]
  · intro td i h
    exact getD_map_none (processResourceSpans env a) rfl td i h
  · intro spans sn i h
    exact getD_map_none (fun sp => processSpan env a sp sn) rfl spans i h
  · intro td1 td2
    simp [processBatch, processResourceSpans]

/-- Witness for C9: on a concrete batch with a nil ResourceSpans slot and a
concrete span slice with a nil span slot, the traversal leaves each nil
slot nil. -/
theorem C9_traversal_skips_nil_elements_witness :
    (([none, some ⟨none, [none]⟩] : Traces).getD 0 none = none) ∧
    (([none, some exampleSpan] : List (Option Span)).getD 0 none = none) ∧
    ((processBatch exampleEnv exampleProcessor [none, some ⟨none, [none]⟩]).getD 0 none
        = none) ∧
    ((([none, some exampleSpan] : List (Option Span)).map
        fun sp => processSpan exampleEnv exampleProcessor sp "svc").getD 0 none
      = none) :=
  ⟨rfl, rfl,
    (C9_traversal_skips_nil_elements exampleEnv exampleProcessor).2.2.2.2.1
      [none, some ⟨none, [none]⟩] 0 rfl,
    (C9_traversal_skips_nil_elements exampleEnv exampleProcessor).2.2.2.2.2.1
      [none, some exampleSpan] "svc" 0 rfl⟩

/-- C10: ConsumeTraces hands the very same batch reference it received to
its next consumer exactly once (the batch is mutated in place, never
copied), returns exactly the error the next consumer returned — nil if and
only if the next consumer returned nil — and GetCapabilities always
reports MutatesConsumedData true. -/
theorem C10_consume_calls_next_once_and_passes_error_through
    (env : ProcessorEnv) (a : AttributesProcessor) (s : Store Traces) (r : Nat) :
    (consumeTraces env a s r).callRefs = [r] ∧
    (consumeTraces env a s r).store = s.set r (processBatch env a (s.get r)) ∧
    (consumeTraces env a s r).result
      = a.nextConsumer.onConsumeTraces ((consumeTraces env a s r).store.get r) ∧
    ((consumeTraces env a s r).result = none ↔
      a.nextConsumer.onConsumeTraces ((consumeTraces env a s r).store.get r) = none) ∧
    getCapabilities a = ⟨true⟩ :=
  ⟨rfl, rfl, rfl, Iff.rfl, rfl⟩

/-! ## Store and CopyTo lemmas -/

/-- Reading any other reference is unaffected by a store write. -/
theorem Store.get_set_ne {α : Type} [Inhabited α] (s : Store α) (i j : Nat)
    (v : α) (h : i ≠ j) : (s.set i v).get j = s.get j :=
  getD_set_ne v default s.cells i j h

/-- Appending cells leaves existing cells readable unchanged. -/
theorem Store.get_append_lt {α : Type} [Inhabited α] (s : Store α)
    (ext : List α) (r : Nat) (h : r < s.cells.length) :
    (Store.mk (s.cells ++ ext)).get r = s.get r :=
  List.getD_append _ _ _ _ h

/-- The copy walk only ever appends cells to the store. -/
theorem copyToAlloc_cells_ext :
    ∀ (m : MapRef) (s : Store KeyValue),
      ∃ ext, (copyToAlloc s m).1.cells = s.cells ++ ext
  | [], s => ⟨[], by simp [copyToAlloc]⟩
  | none :: rest, s => by
    obtain ⟨ext, hx⟩ := copyToAlloc_cells_ext rest s
    exact ⟨ext, by simpa [copyToAlloc] using hx⟩
  | some r :: rest, s => by
    obtain ⟨ext, hx⟩ :=
      copyToAlloc_cells_ext rest ⟨s.cells ++ [s.get r]⟩
    refine ⟨[s.get r] ++ ext, ?_⟩
    simp only [copyToAlloc, Store.alloc] at hx ⊢
    rw [hx, List.append_assoc]

/-- The copied map has exactly the source's length. -/
theorem copyToAlloc_length :
    ∀ (m : MapRef) (s : Store KeyValue),
      (copyToAlloc s m).2.length = m.length
  | [], _ => rfl
  | none :: rest, s => by
    simpa [copyToAlloc] using copyToAlloc_length rest s
  | some r :: rest, s => by
    simpa [copyToAlloc, Store.alloc] using
      copyToAlloc_length rest ⟨s.cells ++ [s.get r]⟩

/-- Every reference the copy holds was freshly allocated: it points past the
cells that existed before the copy. -/
theorem copyToAlloc_refs_fresh :
    ∀ (m : MapRef) (s : Store KeyValue),
      ∀ r ∈ refsOf (copyToAlloc s m).2, s.cells.length ≤ r
  | [], _, _, hr => by simp [copyToAlloc, refsOf] at hr
  | none :: rest, s, r, hr => by
    simp only [copyToAlloc, refsOf, List.filterMap_cons] at hr
    exact copyToAlloc_refs_fresh rest s r hr
  | some r0 :: rest, s, r, hr => by
    simp only [copyToAlloc, refsOf, Store.alloc, List.filterMap_cons, id,
      List.mem_cons] at hr
    rcases hr with hr | hr
    · omega
    · have := copyToAlloc_refs_fresh rest ⟨s.cells ++ [s.get r0]⟩ r hr
      simp only [List.length_append, List.length_cons, List.length_nil] at this
      omega

/-- Well-formedness survives appending cells. -/
theorem wfMap_append (s : Store KeyValue) (ext : List KeyValue) (m : MapRef)
    (h : WfMap s m) : WfMap ⟨s.cells ++ ext⟩ m := by
  intro r hr
  have := h r hr
  simp only [List.length_append]
  omega

/-- The non-nil prefix relation: a member reference of a map is in refsOf. -/
theorem mem_refsOf {m : MapRef} {r : Nat} (h : some r ∈ m) : r ∈ refsOf m :=
  List.mem_filterMap.mpr ⟨some r, h, rfl⟩

/-- The contents a well-formed map presents are unchanged by appending
cells. -/
theorem resolveMap_append (s : Store KeyValue) (ext : List KeyValue)
    (m : MapRef) (h : WfMap s m) :
    resolveMap ⟨s.cells ++ ext⟩ m = resolveMap s m := by
  unfold resolveMap
  apply List.map_congr_left
  intro e he
  rcases e with _ | r
  · rfl
  · simp only [Option.map_some']
    rw [Store.get_append_lt s ext r (h r (mem_refsOf he))]

/-- The contents a map presents are unchanged by writing a cell none of its
references point at. -/
theorem resolveMap_set_ne (s : Store KeyValue) (m : MapRef) (rd : Nat)
    (v : KeyValue) (h : ∀ r ∈ refsOf m, r ≠ rd) :
    resolveMap (s.set rd v) m = resolveMap s m := by
  unfold resolveMap
  apply List.map_congr_left
  intro e he
  rcases e with _ | r
  · rfl
  · simp only [Option.map_some']
    rw [Store.get_set_ne s rd r v fun hh => h r (mem_refsOf he) hh.symm]

/-- Deep-copy correctness: after the copy walk the copy presents, in the
final store, exactly the contents the source presented in the original
store. -/
theorem copyToAlloc_resolve :
    ∀ (m : MapRef) (s : Store KeyValue), WfMap s m →
      resolveMap (copyToAlloc s m).1 (copyToAlloc s m).2 = resolveMap s m
  | [], _, _ => rfl
  | none :: rest, s, h => by
    have hrest : WfMap s rest := by
      intro r hr
      exact h r (by simp only [refsOf, List.filterMap_cons] at hr ⊢; exact hr)
    have ih := copyToAlloc_resolve rest s hrest
    simp only [copyToAlloc, resolveMap, List.map_cons, Option.map_none'] at ih ⊢
    rw [ih]
  | some r0 :: rest, s, h => by
    have hr0 : r0 < s.cells.length :=
      h r0 (mem_refsOf (List.mem_cons_self _ _))
    have hrest : WfMap s rest := by
      intro r hr
      refine h r ?_
      simp only [refsOf, List.filterMap_cons, id] at hr ⊢
      exact List.mem_cons_of_mem _ hr
    have hrest1 : WfMap ⟨s.cells ++ [s.get r0]⟩ rest := wfMap_append s _ rest hrest
    have ih := copyToAlloc_resolve rest ⟨s.cells ++ [s.get r0]⟩ hrest1
    obtain ⟨ext, hx⟩ := copyToAlloc_cells_ext rest (⟨s.cells ++ [s.get r0]⟩ : Store KeyValue)
    have hst : (copyToAlloc (⟨s.cells ++ [s.get r0]⟩ : Store KeyValue) rest).1
        = (⟨(s.cells ++ [s.get r0]) ++ ext⟩ : Store KeyValue) := by
      rw [← hx]
    have hhead : (copyToAlloc (⟨s.cells ++ [s.get r0]⟩ : Store KeyValue) rest).1.get
        s.cells.length = s.get r0 := by
      rw [hst]
      have hfresh : s.cells.length < (s.cells ++ [s.get r0]).length := by simp
      rw [Store.get_append_lt (⟨s.cells ++ [s.get r0]⟩ : Store KeyValue) ext
        s.cells.length hfresh]
      show (s.cells ++ [s.get r0]).getD s.cells.length default = s.get r0
      rw [List.getD_append_right _ _ _ _ (Nat.le_refl _), Nat.sub_self]
      rfl
    have htail := resolveMap_append s [s.get r0] rest hrest
    simp only [copyToAlloc, Store.alloc, resolveMap, List.map_cons,
      Option.map_some'] at ih htail ⊢
    rw [hhead, ih, htail]

/-- C7: for every source map a and destination b regardless of b's prior
size, a.CopyTo(b) — once, and a second time — leaves b deep-equal to a,
with b's length equal to a's length, and the copy shares no mutable cell
with the source: mutating any of b's cells never changes a's observed
contents and mutating any of a's cells never changes b's. -/
theorem C7_copyTo_deep_copies_any_destination (s : Store KeyValue)
    (a b : MapRef) (h : WfMap s a) :
    (copyToMap s a b).2.length = a.length ∧
    resolveMap (copyToMap s a b).1 (copyToMap s a b).2
      = resolveMap (copyToMap s a b).1 a ∧
    (copyToMap (copyToMap s a b).1 a (copyToMap s a b).2).2.length = a.length ∧
    resolveMap (copyToMap (copyToMap s a b).1 a (copyToMap s a b).2).1
        (copyToMap (copyToMap s a b).1 a (copyToMap s a b).2).2
      = resolveMap (copyToMap (copyToMap s a b).1 a (copyToMap s a b).2).1 a ∧
    (∀ rd ∈ refsOf (copyToMap s a b).2, rd ∉ refsOf a) ∧
    (∀ rd ∈ refsOf (copyToMap s a b).2, ∀ v,
      resolveMap ((copyToMap s a b).1.set rd v) a
        = resolveMap (copyToMap s a b).1 a) ∧
    (∀ ra ∈ refsOf a, ∀ v,
      resolveMap ((copyToMap s a b).1.set ra v) (copyToMap s a b).2
        = resolveMap (copyToMap s a b).1 (copyToMap s a b).2) := by
  obtain ⟨ext, hx⟩ := copyToAlloc_cells_ext a s
  have hst1 : (copyToAlloc s a).1 = (⟨s.cells ++ ext⟩ : Store KeyValue) := by
    rw [← hx]
  have hresa : resolveMap (copyToAlloc s a).1 a = resolveMap s a := by
    rw [hst1]
    exact resolveMap_append s ext a h
  have hwf1 : WfMap (copyToAlloc s a).1 a := by
    intro r hr
    rw [hst1]
    exact (wfMap_append s ext a h) r hr
  refine ⟨copyToAlloc_length a s, ?_, copyToAlloc_length a _, ?_, ?_, ?_, ?_⟩
  · show resolveMap (copyToAlloc s a).1 (copyToAlloc s a).2
      = resolveMap (copyToAlloc s a).1 a
    rw [copyToAlloc_resolve a s h, hresa]
  · show resolveMap (copyToAlloc (copyToAlloc s a).1 a).1
        (copyToAlloc (copyToAlloc s a).1 a).2
      = resolveMap (copyToAlloc (copyToAlloc s a).1 a).1 a
    rw [copyToAlloc_resolve a (copyToAlloc s a).1 hwf1]
    obtain ⟨ext2, hx2⟩ := copyToAlloc_cells_ext a (copyToAlloc s a).1
    have hst2 : (copyToAlloc (copyToAlloc s a).1 a).1
        = (⟨(copyToAlloc s a).1.cells ++ ext2⟩ : Store KeyValue) := by
      rw [← hx2]
    rw [hst2]
    exact (resolveMap_append (copyToAlloc s a).1 ext2 a hwf1).symm
  · intro rd hrd hmem
    have hge := copyToAlloc_refs_fresh a s rd hrd
    have hlt := h rd hmem
    omega
  · intro rd hrd v
    apply resolveMap_set_ne
    intro r hr
    have hge := copyToAlloc_refs_fresh a s rd hrd
    have hlt := h r hr
    omega
  · intro ra hra v
    apply resolveMap_set_ne
    intro r hr
    have hge := copyToAlloc_refs_fresh a s r hr
    have hlt := h ra hra
    omega

/-- Witness for C7: copying the concrete two-entry map (with a nil slot)
over the concrete cell store into a destination of a different prior
size. -/
theorem C7_copyTo_deep_copies_any_destination_witness :
    WfMap exampleCellStore exampleSrcMap ∧
    ((copyToMap exampleCellStore exampleSrcMap examplePriorDest).2.length
        = exampleSrcMap.length ∧
      resolveMap (copyToMap exampleCellStore exampleSrcMap examplePriorDest).1
          (copyToMap exampleCellStore exampleSrcMap examplePriorDest).2
        = resolveMap (copyToMap exampleCellStore exampleSrcMap examplePriorDest).1
            exampleSrcMap ∧
      (copyToMap (copyToMap exampleCellStore exampleSrcMap examplePriorDest).1
          exampleSrcMap
          (copyToMap exampleCellStore exampleSrcMap examplePriorDest).2).2.length
        = exampleSrcMap.length ∧
      resolveMap
          (copyToMap (copyToMap exampleCellStore exampleSrcMap examplePriorDest).1
            exampleSrcMap
            (copyToMap exampleCellStore exampleSrcMap examplePriorDest).2).1
          (copyToMap (copyToMap exampleCellStore exampleSrcMap examplePriorDest).1
            exampleSrcMap
            (copyToMap exampleCellStore exampleSrcMap examplePriorDest).2).2
        = resolveMap
            (copyToMap (copyToMap exampleCellStore exampleSrcMap examplePriorDest).1
              exampleSrcMap
              (copyToMap exampleCellStore exampleSrcMap examplePriorDest).2).1
            exampleSrcMap ∧
      (∀ rd ∈ refsOf (copyToMap exampleCellStore exampleSrcMap examplePriorDest).2,
        rd ∉ refsOf exampleSrcMap) ∧
      (∀ rd ∈ refsOf (copyToMap exampleCellStore exampleSrcMap examplePriorDest).2,
        ∀ v,
        resolveMap
            ((copyToMap exampleCellStore exampleSrcMap examplePriorDest).1.set rd v)
            exampleSrcMap
          = resolveMap (copyToMap exampleCellStore exampleSrcMap examplePriorDest).1
              exampleSrcMap) ∧
      (∀ ra ∈ refsOf exampleSrcMap, ∀ v,
        resolveMap
            ((copyToMap exampleCellStore exampleSrcMap examplePriorDest).1.set ra v)
            (copyToMap exampleCellStore exampleSrcMap examplePriorDest).2
          = resolveMap (copyToMap exampleCellStore exampleSrcMap examplePriorDest).1
              (copyToMap exampleCellStore exampleSrcMap examplePriorDest).2)) :=
  ⟨by decide,
    C7_copyTo_deep_copies_any_destination exampleCellStore exampleSrcMap
      examplePriorDest (by decide)⟩

/-! ## Fan-out lemmas -/

/-- getD of a replicate below its length. -/
theorem getD_replicate_lt {α : Type} (a d : α) :
    ∀ (n i : Nat), i < n → (List.replicate n a).getD i d = a
  | 0, _, h => absurd h (Nat.not_lt_zero _)
  | _ + 1, 0, _ => rfl
  | n + 1, i + 1, h => by
    simpa [List.replicate, List.getD_cons_succ] using
      getD_replicate_lt a d n i (Nat.lt_of_succ_lt_succ h)

/-- Filtering a tagged map by first component counts tag occurrences. -/
theorem filter_fst_map_length {β : Type} (g : String → β) (e : String) :
    ∀ l : List String,
      ((l.map fun x => (x, g x)).filter fun o => o.1 == e).length = l.count e
  | [] => rfl
  | x :: xs => by
    by_cases hx : x == e <;>
      simp [List.filter_cons, List.count_cons, hx, filter_fst_map_length g e xs]

/-- Binding through a zip with a function of the second component only. -/
theorem zip_flatMap_snd {α β γ : Type} (f : β → List γ) :
    ∀ (l1 : List α) (l2 : List β), l1.length = l2.length →
      ((l1.zip l2).flatMap fun p => f p.2) = l2.flatMap f
  | [], [], _ => rfl
  | [], _ :: _, h => by simp at h
  | _ :: _, [], h => by simp at h
  | _ :: xs, y :: ys, h => by
    simp only [List.zip_cons_cons, List.flatMap_cons]
    rw [zip_flatMap_snd f xs ys (by simpa using h)]

/-- Sequential delivery over pairwise-distinct references whose cells all
hold the batch b: every chain reads b untouched — each exporter observes
exactly its own chain's processing of b, unaffected by the in-place
mutations the other chains performed. -/
theorem deliverChains_obs (b : Traces) :
    ∀ (l : List (Nat × Chain)) (s : Store Traces),
      (l.map Prod.fst).Nodup → (∀ p ∈ l, s.get p.1 = b) →
      (deliverChains s l).2
        = l.flatMap fun p => p.2.exporters.map fun e => (e, p.2.process b)
  | [], _, _, _ => rfl
  | (r, c) :: rest, s, hnd, hb => by
    have hrb : s.get r = b := hb (r, c) (List.mem_cons_self _ _)
    have hndc : (r :: rest.map Prod.fst).Nodup := hnd
    have hnd0 := List.nodup_cons.mp hndc
    have hb1 : ∀ p ∈ rest, (s.set r (c.process (s.get r))).get p.1 = b := by
      intro p hp
      have hne : r ≠ p.1 := fun hh =>
        hnd0.1 (hh ▸ List.mem_map_of_mem Prod.fst hp)
      rw [Store.get_set_ne s r p.1 _ hne]
      exact hb p (List.mem_cons_of_mem _ hp)
    have ih := deliverChains_obs b rest (s.set r (c.process (s.get r)))
      hnd0.2 hb1
    simp only [deliverChains, List.flatMap_cons]
    rw [ih, hrb]

/-- Per-exporter observation counts of a fan-out log: each exporter appears
once per chain that lists it. -/
theorem obs_count (b : Traces) (e : String) :
    ∀ chains : List Chain,
      (((chains.flatMap fun c => c.exporters.map fun x => (x, c.process b)).filter
          fun o => o.1 == e).length)
        = (chains.flatMap fun c => c.exporters).count e
  | [] => rfl
  | c :: cs => by
    simp only [List.flatMap_cons, List.filter_append, List.length_append,
      List.count_append]
    rw [obs_count b e cs, filter_fst_map_length (fun _ => c.process b) e]

/-- The references the fan-out delivers are pairwise distinct when the
original cell exists. -/
theorem fanoutRefs_nodup (s : Store Traces) (r n : Nat)
    (hr : r < s.cells.length) : (fanoutRefs s r n).2.Nodup := by
  simp only [fanoutRefs]
  rw [List.nodup_append]
  refine ⟨?_, List.nodup_singleton r, ?_⟩
  · exact (List.nodup_range _).map fun a b h => Nat.add_left_cancel h
  · intro x hx hx'
    obtain ⟨i, _, hi⟩ := List.mem_map.mp hx
    have : x = r := List.mem_singleton.mp hx'
    omega

/-- Every delivered reference's cell initially holds the batch. -/
theorem fanoutRefs_contents (s : Store Traces) (r n : Nat)
    (hr : r < s.cells.length) :
    ∀ q ∈ (fanoutRefs s r n).2, (fanoutRefs s r n).1.get q = s.get r := by
  intro q hq
  simp only [fanoutRefs] at hq ⊢
  rcases List.mem_append.mp hq with hq | hq
  · obtain ⟨i, hi, hqi⟩ := List.mem_map.mp hq
    have hilt : i < n - 1 := List.mem_range.mp hi
    subst hqi
    show (s.cells ++ List.replicate (n - 1) (s.get r)).getD
      (s.cells.length + i) default = s.get r
    rw [List.getD_append_right _ _ _ _ (Nat.le_add_right _ _),
      Nat.add_sub_cancel_left]
    exact getD_replicate_lt _ _ _ _ hilt
  · have hqr : q = r := List.mem_singleton.mp hq
    rw [hqr]
    show (s.cells ++ List.replicate (n - 1) (s.get r)).getD r default = s.get r
    exact List.getD_append _ _ _ _ hr

/-- The delivered reference list has one entry per chain (n at least 1). -/
theorem fanoutRefs_length (s : Store Traces) (r n : Nat) (hn : 1 ≤ n) :
    (fanoutRefs s r n).2.length = n := by
  simp only [fanoutRefs, List.length_append, List.length_map,
    List.length_range, List.length_cons, List.length_nil]
  omega

/-- C1: delivering one batch through the fan-out consumer to N at least 2
downstream chains hands every chain its own reference (pairwise distinct:
N-1 deep copies first, the original last), every exporter observes, per
chain that reaches it, exactly that chain's own processing of the original
batch content — so mutating the copy received by one chain never changes
the content observed by any other chain — and each exporter's observation
count equals the number of chains that list it (twice for an exporter
shared by two pipelines, once for an exporter in only one). -/
theorem C1_fanout_isolation_and_exactly_once (s : Store Traces) (r : Nat)
    (chains : List Chain) (hr : r < s.cells.length)
    (hn : 2 ≤ chains.length) :
    (fanoutConsumeTraces s r chains).2.1.Nodup ∧
    (fanoutConsumeTraces s r chains).2.2
      = (chains.flatMap fun c => c.exporters.map fun e => (e, c.process (s.get r))) ∧
    (∀ e : String,
      (((fanoutConsumeTraces s r chains).2.2.filter fun o => o.1 == e).length)
        = (chains.flatMap fun c => c.exporters).count e) := by
  have h1 : 1 ≤ chains.length := le_trans (by omega) hn
  have hlen : (fanoutRefs s r chains.length).2.length = chains.length :=
    fanoutRefs_length s r chains.length h1
  have hmapfst : ((fanoutRefs s r chains.length).2.zip chains).map Prod.fst
      = (fanoutRefs s r chains.length).2 :=
    List.map_fst_zip _ _ (le_of_eq hlen)
  have hobs : (deliverChains (fanoutRefs s r chains.length).1
      ((fanoutRefs s r chains.length).2.zip chains)).2
      = ((fanoutRefs s r chains.length).2.zip chains).flatMap
          fun p => p.2.exporters.map fun e => (e, p.2.process (s.get r)) := by
    apply deliverChains_obs
    · rw [hmapfst]
      exact fanoutRefs_nodup s r chains.length hr
    · intro p hp
      exact fanoutRefs_contents s r chains.length hr p.1
        (by
          have := List.mem_map_of_mem Prod.fst hp
          rw [hmapfst] at this
          exact this)
  have hbind : (((fanoutRefs s r chains.length).2.zip chains).flatMap
      fun p => p.2.exporters.map fun e => (e, p.2.process (s.get r)))
      = chains.flatMap fun c => c.exporters.map fun e => (e, c.process (s.get r)) :=
    zip_flatMap_snd
      (fun c => c.exporters.map fun e => (e, c.process (s.get r))) _ _ hlen
  refine ⟨fanoutRefs_nodup s r chains.length hr, ?_, ?_⟩
  · show (deliverChains (fanoutRefs s r chains.length).1
        ((fanoutRefs s r chains.length).2.zip chains)).2
      = chains.flatMap fun c => c.exporters.map fun e => (e, c.process (s.get r))
    rw [hobs, hbind]
  · intro e
    show (((deliverChains (fanoutRefs s r chains.length).1
        ((fanoutRefs s r chains.length).2.zip chains)).2.filter
          fun o => o.1 == e).length)
      = (chains.flatMap fun c => c.exporters).count e
    rw [hobs, hbind]
    exact obs_count (s.get r) e chains

/-- Witness for C1: the multi-receiver-multi-exporter scenario — one batch
fanned out to two trace pipeline chains, the first exporting to
exampleexporter, the second to exampleexporter and exampleexporter/2. -/
theorem C1_fanout_isolation_and_exactly_once_witness :
    0 < (Store.mk [exampleBatch] : Store Traces).cells.length ∧
    2 ≤ exampleChains.length ∧
    ((fanoutConsumeTraces ⟨[exampleBatch]⟩ 0 exampleChains).2.1.Nodup ∧
      (fanoutConsumeTraces ⟨[exampleBatch]⟩ 0 exampleChains).2.2
        = (exampleChains.flatMap fun c => c.exporters.map
            fun e => (e, c.process ((Store.mk [exampleBatch] : Store Traces).get 0))) ∧
      (∀ e : String,
        (((fanoutConsumeTraces ⟨[exampleBatch]⟩ 0 exampleChains).2.2.filter
            fun o => o.1 == e).length)
          = (exampleChains.flatMap fun c => c.exporters).count e)) :=
  ⟨by decide, by decide,
    C1_fanout_isolation_and_exactly_once ⟨[exampleBatch]⟩ 0 exampleChains
      (by decide) (by decide)⟩

/-! ## Receivers builder lemmas -/

/-- A receiver referenced by no pipeline is skipped by its build step: the
internal errUnusedReceiver is consumed and no instance is produced. -/
theorem buildReceiver_unused (f : ReceiverFactories) (cfg : ServiceConfig)
    (u : String) (h : ∀ p ∈ cfg.pipelines, p.receivers.contains u = false) :
    buildReceiver f cfg u = .ok none := by
  have hempty : pipelinesReferencing cfg u = [] := by
    rw [pipelinesReferencing, List.filter_eq_nil_iff]
    intro p hp hc
    rw [h p hp] at hc
    cases hc
  simp [buildReceiver, hempty]

/-- Dropping an unused receiver from the declared list changes nothing about
the build outcome. -/
theorem buildList_skip (f : ReceiverFactories) (cfg : ServiceConfig)
    (u : String) (h : buildReceiver f cfg u = .ok none) :
    ∀ names1 names2,
      buildList f cfg (names1 ++ u :: names2) = buildList f cfg (names1 ++ names2)
  | [], names2 => by
    simp only [List.nil_append]
    show buildList f cfg (u :: names2) = buildList f cfg names2
    simp only [buildList, h]
    cases hb : buildList f cfg names2 <;> rfl
  | n :: rest, names2 => by
    have ih := buildList_skip f cfg u h rest names2
    show buildList f cfg (n :: (rest ++ u :: names2))
        = buildList f cfg (n :: (rest ++ names2))
    cases hbr : buildReceiver f cfg n with
    | error e => simp only [buildList, hbr]
    | ok b =>
      simp only [buildList, hbr, List.append_eq, ih]

/-- A successful build of a referenced receiver yields exactly the single
shared instance wired to each demanded data type's pipelines. -/
theorem buildReceiver_ok_used (f : ReceiverFactories) (cfg : ServiceConfig)
    (n : String) (o : Option BuiltReceiver)
    (hu : (pipelinesReferencing cfg n).isEmpty = false)
    (h : buildReceiver f cfg n = .ok o) :
    o = some ⟨n, pipelinesFor cfg n .traces, pipelinesFor cfg n .metrics,
      pipelinesFor cfg n .logs⟩ := by
  unfold buildReceiver at h
  rw [hu] at h
  simp only [Bool.false_eq_true, if_false] at h
  cases h1 : checkCreate f cfg n .traces with
  | error e => rw [h1] at h; cases h
  | ok u1 =>
    rw [h1] at h
    cases h2 : checkCreate f cfg n .metrics with
    | error e => rw [h2] at h; cases h
    | ok u2 =>
      rw [h2] at h
      cases h3 : checkCreate f cfg n .logs with
      | error e => rw [h3] at h; cases h
      | ok u3 =>
        rw [h3] at h
        cases h
        rfl

/-- Any instance the per-receiver build step yields is named after its
config. -/
theorem builtFor_name (f : ReceiverFactories) (cfg : ServiceConfig) :
    ∀ n br, builtFor f cfg n = some br → br.name = n := by
  intro n br h
  unfold builtFor at h
  cases hbr : buildReceiver f cfg n with
  | error e => rw [hbr] at h; cases h
  | ok o =>
    rw [hbr] at h
    by_cases he : (pipelinesReferencing cfg n).isEmpty = true
    · have hnone : buildReceiver f cfg n = .ok none := by
        unfold buildReceiver
        rw [if_pos he]
      rw [hbr] at hnone
      cases hnone
      cases h
    · have ho := buildReceiver_ok_used f cfg n o
        (Bool.not_eq_true _ ▸ he) hbr
      rw [ho] at h
      cases h
      rfl

/-- A successful Build lists exactly the instances the per-receiver build
steps yield, in declaration order. -/
theorem buildList_ok_eq (f : ReceiverFactories) (cfg : ServiceConfig) :
    ∀ (names : List String) (bs : List BuiltReceiver),
      buildList f cfg names = .ok bs → bs = names.filterMap (builtFor f cfg)
  | [], bs, h => by
    simp only [buildList] at h
    cases h
    rfl
  | n :: rest, bs, h => by
    simp only [buildList] at h
    cases hbr : buildReceiver f cfg n with
    | error e => rw [hbr] at h; cases h
    | ok b =>
      rw [hbr] at h
      cases hbl : buildList f cfg rest with
      | error e => rw [hbl] at h; cases h
      | ok bs1 =>
        rw [hbl] at h
        have ih := buildList_ok_eq f cfg rest bs1 hbl
        cases b with
        | none =>
          cases h
          have hnone : builtFor f cfg n = none := by
            unfold builtFor
            rw [hbr]
          rw [List.filterMap_cons, hnone, ih]
        | some br =>
          cases h
          have hsome : builtFor f cfg n = some br := by
            unfold builtFor
            rw [hbr]
          rw [List.filterMap_cons, hsome, ih]

/-- A successful Build means every declared receiver's own build step
succeeded. -/
theorem buildList_ok_elem (f : ReceiverFactories) (cfg : ServiceConfig) :
    ∀ (names : List String) (bs : List BuiltReceiver) (n : String),
      buildList f cfg names = .ok bs → n ∈ names →
      ∃ o, buildReceiver f cfg n = .ok o
  | [], _, n, _, hmem => absurd hmem (List.not_mem_nil n)
  | m :: rest, bs, n, h, hmem => by
    simp only [buildList] at h
    cases hbr : buildReceiver f cfg m with
    | error e => rw [hbr] at h; cases h
    | ok b =>
      rcases List.mem_cons.mp hmem with hmm | hmm
      · exact ⟨b, hmm ▸ hbr⟩
      · rw [hbr] at h
        cases hbl : buildList f cfg rest with
        | error e => rw [hbl] at h; cases h
        | ok bs1 => exact buildList_ok_elem f cfg rest bs1 n hbl hmm

/-- Filtering built instances by name counts name occurrences among the
declared receivers (each contributing its single instance, if used). -/
theorem filter_name_filterMap_eq (g : String → Option BuiltReceiver)
    (hg : ∀ n br, g n = some br → br.name = n) (R : String) :
    ∀ names : List String,
      ((names.filterMap g).filter fun b => b.name == R)
        = (match g R with
            | some br => List.replicate (names.count R) br
            | none => [])
  | [] => by cases g R <;> rfl
  | n :: names => by
    have ih := filter_name_filterMap_eq g hg R names
    by_cases hn : n = R
    · subst hn
      cases hgr : g n with
      | none =>
        rw [List.filterMap_cons, hgr]
        rw [hgr] at ih
        exact ih
      | some br =>
        rw [List.filterMap_cons, hgr]
        rw [hgr] at ih
        have hname : br.name = n := hg n br hgr
        rw [List.filter_cons, List.count_cons]
        simp only [hname, BEq.refl, if_true, ih, List.replicate_succ]
    · cases hgr : g n with
      | none =>
        rw [List.filterMap_cons, hgr]
        rw [List.count_cons]
        have : (n == R) = false := by simp [hn]
        simp only [this, if_false, Nat.add_zero]
        exact ih
      | some br =>
        rw [List.filterMap_cons, hgr]
        have hname : br.name = n := hg n br hgr
        rw [List.filter_cons, List.count_cons]
        have hbne : (br.name == R) = false := by simp [hname, hn]
        have hne2 : (n == R) = false := by simp [hn]
        simp only [hbne, if_false, hne2, Nat.add_zero]
        exact ih

/-- A nonempty demanded-type pipeline list means the receiver is referenced
by some pipeline. -/
theorem referencing_nonempty_of_for (cfg : ServiceConfig) (rcv : String)
    (dt : DataType) (h : (pipelinesFor cfg rcv dt).isEmpty = false) :
    (pipelinesReferencing cfg rcv).isEmpty = false := by
  have hex : ∃ p, p ∈ pipelinesFor cfg rcv dt := by
    cases hp : pipelinesFor cfg rcv dt with
    | nil => rw [hp] at h; cases h
    | cons a l => exact ⟨a, hp ▸ List.mem_cons_self a l⟩
  obtain ⟨p, hp⟩ := hex
  have hmem := List.mem_filter.mp hp
  have hand := Bool.and_eq_true_iff.mp hmem.2
  have hpr : p ∈ pipelinesReferencing cfg rcv :=
    List.mem_filter.mpr ⟨hmem.1, hand.2⟩
  cases hq : pipelinesReferencing cfg rcv with
  | nil => rw [hq] at hpr; cases hpr
  | cons a l => rfl

/-- A data type no pipeline demands never has its creation method called. -/
theorem checkCreate_not_demanded (f : ReceiverFactories) (cfg : ServiceConfig)
    (rcv : String) (dt : DataType)
    (h : (pipelinesFor cfg rcv dt).isEmpty = true) :
    checkCreate f cfg rcv dt = .ok () := by
  simp [checkCreate, h]

/-- A successfully created data type passes its build check. -/
theorem checkCreate_ok (f : ReceiverFactories) (cfg : ServiceConfig)
    (rcv : String) (dt : DataType) (h : f.create rcv dt = .ok) :
    checkCreate f cfg rcv dt = .ok () := by
  by_cases hd : (pipelinesFor cfg rcv dt).isEmpty <;> simp [checkCreate, hd, h]

/-- A demanded data type the factory reports as unsupported fails its build
check with the typed mismatch error. -/
theorem checkCreate_unsupported (f : ReceiverFactories) (cfg : ServiceConfig)
    (rcv : String) (dt : DataType)
    (hd : (pipelinesFor cfg rcv dt).isEmpty = false)
    (h : f.create rcv dt = .errDataTypeIsNotSupported) :
    checkCreate f cfg rcv dt = .error (.dataTypeMismatch rcv dt) := by
  simp [checkCreate, hd, h]

/-- C2 counterexample: on the unused-receiver configuration (examplereceiver
used by one traces pipeline, zipkin declared but referenced by no
pipeline), Build succeeds — it returns no error and one built receiver for
the used config — rather than failing with an unused-receiver error and
zero built receivers. -/
theorem C2_counterexample_build_succeeds_with_unused_receiver :
    buildAllReceivers okFactories unusedReceiverCfg
      = .ok [⟨"examplereceiver", [tracesPipelineEx], [], []⟩] := by
  rfl

/-- C2 amended: a receiver declared in config but referenced by no pipeline
is skipped by the build step — the internal errUnusedReceiver is consumed,
NewReceiversBuilder(...).Build() returns no error, the unused receiver
contributes zero built instances, and the build outcome is exactly what it
would have been had the unused receiver not been declared. -/
theorem C2_amended_unused_receiver_skipped_without_error
    (f : ReceiverFactories) (cfg : ServiceConfig) (u : String)
    (h : ∀ p ∈ cfg.pipelines, p.receivers.contains u = false) :
    buildReceiver f cfg u = .ok none ∧
    ∀ names1 names2,
      buildList f cfg (names1 ++ u :: names2)
        = buildList f cfg (names1 ++ names2) :=
  ⟨buildReceiver_unused f cfg u h,
    buildList_skip f cfg u (buildReceiver_unused f cfg u h)⟩

/-- Witness for the amended C2: zipkin in the unused-receiver configuration
is skipped without an error, leaving the build as if it were undeclared. -/
theorem C2_amended_unused_receiver_skipped_without_error_witness :
    (∀ p ∈ unusedReceiverCfg.pipelines,
      p.receivers.contains "zipkin" = false) ∧
    (buildReceiver okFactories unusedReceiverCfg "zipkin" = .ok none ∧
      ∀ names1 names2,
        buildList okFactories unusedReceiverCfg (names1 ++ "zipkin" :: names2)
          = buildList okFactories unusedReceiverCfg (names1 ++ names2)) :=
  ⟨by
      intro p hp
      have hp1 : p = tracesPipelineEx := List.mem_singleton.mp hp
      rw [hp1]
      rfl,
    C2_amended_unused_receiver_skipped_without_error okFactories
      unusedReceiverCfg "zipkin"
      (by
        intro p hp
        have hp1 : p = tracesPipelineEx := List.mem_singleton.mp hp
        rw [hp1]
        rfl)⟩

/-- C4 counterexample: with examplereceiver attached to a configured traces
pipeline and its factory reporting the typed unsupported-data-type error
for traces, the build aborts as a whole — Build returns the mismatch error
and no receivers — rather than proceeding with that combination disabled. -/
theorem C4_counterexample_demanded_unsupported_type_aborts_build :
    buildAllReceivers failTraceFactories pipelinesBuilderCfg
      = .error (.dataTypeMismatch "examplereceiver" .traces) := by
  rfl

/-- C4 amended: the typed unsupported-data-type error is locally handled
only for (component, data-type) combinations no configured pipeline
demands — the creation method for an undemanded type is never consulted,
so the receiver still builds with that combination disabled; but when a
configured pipeline of that data type references the receiver, the typed
error is a configuration error that fails the build (distinguishable from
the nil-component integrity error). -/
theorem C4_amended_unsupported_type_only_disables_undemanded_combination
    (f : ReceiverFactories) (cfg : ServiceConfig) (rcv : String)
    (dt : DataType)
    (hns : f.create rcv dt = .errDataTypeIsNotSupported)
    (hothers : ∀ dt', dt' ≠ dt → (pipelinesFor cfg rcv dt').isEmpty = false →
      f.create rcv dt' = .ok) :
    ((pipelinesFor cfg rcv dt).isEmpty = true →
      (pipelinesReferencing cfg rcv).isEmpty = false →
      buildReceiver f cfg rcv = .ok (some
        { name := rcv
          attachedTraces := pipelinesFor cfg rcv .traces
          attachedMetrics := pipelinesFor cfg rcv .metrics
          attachedLogs := pipelinesFor cfg rcv .logs })) ∧
    ((pipelinesFor cfg rcv dt).isEmpty = false →
      buildReceiver f cfg rcv = .error (.dataTypeMismatch rcv dt)) := by
  have hok : ∀ dt', dt' ≠ dt → checkCreate f cfg rcv dt' = .ok () := by
    intro dt' hne
    by_cases hd : (pipelinesFor cfg rcv dt').isEmpty = true
    · exact checkCreate_not_demanded f cfg rcv dt' hd
    · exact checkCreate_ok f cfg rcv dt'
        (hothers dt' hne (Bool.not_eq_true _ ▸ hd))
  constructor
  · intro hdm hused
    have hokdt : checkCreate f cfg rcv dt = .ok () :=
      checkCreate_not_demanded f cfg rcv dt hdm
    have hall : ∀ dt', checkCreate f cfg rcv dt' = .ok () := by
      intro dt'
      by_cases hne : dt' = dt
      · rw [hne]; exact hokdt
      · exact hok dt' hne
    unfold buildReceiver
    rw [hused]
    simp only [Bool.false_eq_true, if_false, hall .traces, hall .metrics,
      hall .logs]
  · intro hdm
    have hused : (pipelinesReferencing cfg rcv).isEmpty = false :=
      referencing_nonempty_of_for cfg rcv dt hdm
    have herr : checkCreate f cfg rcv dt = .error (.dataTypeMismatch rcv dt) :=
      checkCreate_unsupported f cfg rcv dt hdm hns
    unfold buildReceiver
    rw [hused]
    cases dt with
    | traces =>
      simp only [Bool.false_eq_true, if_false, herr]
    | metrics =>
      simp only [Bool.false_eq_true, if_false,
        hok .traces (by intro hc; cases hc), herr]
    | logs =>
      simp only [Bool.false_eq_true, if_false,
        hok .traces (by intro hc; cases hc),
        hok .metrics (by intro hc; cases hc), herr]

/-- Witness for the amended C4: a receiver whose factory rejects logs while
only traces and metrics pipelines demand it builds fine with the logs
binding disabled, and the same factory answer for a demanded type fails the
build with the typed mismatch error. -/
theorem C4_amended_unsupported_type_only_disables_undemanded_combination_witness :
    (ReceiverFactories.mk fun _ dt =>
        if dt == DataType.logs then .errDataTypeIsNotSupported
        else .ok).create "examplereceiver" .logs
      = .errDataTypeIsNotSupported ∧
    (∀ dt', dt' ≠ DataType.logs →
      (pipelinesFor sharedReceiverCfg "examplereceiver" dt').isEmpty = false →
      (ReceiverFactories.mk fun _ dt =>
        if dt == DataType.logs then .errDataTypeIsNotSupported
        else .ok).create "examplereceiver" dt' = .ok) ∧
    (((pipelinesFor sharedReceiverCfg "examplereceiver" DataType.logs).isEmpty = true →
      (pipelinesReferencing sharedReceiverCfg "examplereceiver").isEmpty = false →
      buildReceiver
        (ReceiverFactories.mk fun _ dt =>
          if dt == DataType.logs then .errDataTypeIsNotSupported
          else .ok)
        sharedReceiverCfg "examplereceiver" = .ok (some
        { name := "examplereceiver"
          attachedTraces := pipelinesFor sharedReceiverCfg "examplereceiver" .traces
          attachedMetrics := pipelinesFor sharedReceiverCfg "examplereceiver" .metrics
          attachedLogs := pipelinesFor sharedReceiverCfg "examplereceiver" .logs })) ∧
    ((pipelinesFor sharedReceiverCfg "examplereceiver" DataType.logs).isEmpty = false →
      buildReceiver
        (ReceiverFactories.mk fun _ dt =>
          if dt == DataType.logs then .errDataTypeIsNotSupported
          else .ok)
        sharedReceiverCfg "examplereceiver"
        = .error (.dataTypeMismatch "examplereceiver" .logs))) :=
  ⟨rfl,
    fun dt' hne _ => by
      cases dt' with
      | traces => rfl
      | metrics => rfl
      | logs => exact absurd rfl hne,
    C4_amended_unsupported_type_only_disables_undemanded_combination
      (ReceiverFactories.mk fun _ dt =>
        if dt == DataType.logs then .errDataTypeIsNotSupported
        else .ok)
      sharedReceiverCfg "examplereceiver" DataType.logs rfl
      (by
        intro dt' hne hdm
        cases dt' with
        | traces => rfl
        | metrics => rfl
        | logs => exact absurd rfl hne)⟩

/-- Delivery through a receiver binding attached to exactly one trace
pipeline: the original batch goes straight to that pipeline's chain, and
each of its exporters observes it once, unmodified. -/
theorem receiverConsumeTraces_single (s : Store Traces) (r : Nat)
    (nm : String) (p : PipelineCfg) (ms ls : List PipelineCfg) :
    (receiverConsumeTraces s r ⟨nm, [p], ms, ls⟩).2.2
      = p.exporters.map fun e => (e, s.get r) := by
  show (deliverChains (fanoutRefs s r 1).1
      ((fanoutRefs s r 1).2.zip [pipelineChain p])).2
    = p.exporters.map fun e => (e, s.get r)
  simp [fanoutRefs, deliverChains, pipelineChain, Store.get]

/-- C3: one receiver config referenced by a traces pipeline and a separate
metrics pipeline builds into exactly one receiver instance (keyed by the
config, carrying both the traces binding and the metrics binding), and one
trace batch sent through it is observed exactly once by each of the traces
pipeline's exporters and never by any exporter outside them (in particular
never by the metrics pipeline's exporters when they are separate). -/
theorem C3_single_shared_instance_and_typed_delivery
    (f : ReceiverFactories) (cfg : ServiceConfig) (R : String)
    (rts ets rms ems : List String) (bs : List BuiltReceiver)
    (hp : cfg.pipelines = [⟨.traces, rts, ets⟩, ⟨.metrics, rms, ems⟩])
    (h1 : rts.contains R = true) (h2 : rms.contains R = true)
    (hc : cfg.receivers.count R = 1)
    (hb : buildAllReceivers f cfg = .ok bs)
    (hnd : ets.Nodup) :
    (bs.filter fun b => b.name == R)
      = [⟨R, [⟨.traces, rts, ets⟩], [⟨.metrics, rms, ems⟩], []⟩] ∧
    (∀ (s : Store Traces) (r : Nat) (e : String), e ∈ ets →
      (((receiverConsumeTraces s r
          ⟨R, [⟨.traces, rts, ets⟩], [⟨.metrics, rms, ems⟩], []⟩).2.2.filter
            fun o => o.1 == e).length) = 1) ∧
    (∀ (s : Store Traces) (r : Nat) (e : String), e ∉ ets →
      (((receiverConsumeTraces s r
          ⟨R, [⟨.traces, rts, ets⟩], [⟨.metrics, rms, ems⟩], []⟩).2.2.filter
            fun o => o.1 == e).length) = 0) := by
  have hm1 : R ∈ rts := by simpa using h1
  have hm2 : R ∈ rms := by simpa using h2
  have beq_tt : (DataType.traces == DataType.traces) = true := rfl
  have beq_mt : (DataType.metrics == DataType.traces) = false := rfl
  have beq_tm : (DataType.traces == DataType.metrics) = false := rfl
  have beq_mm : (DataType.metrics == DataType.metrics) = true := rfl
  have beq_tl : (DataType.traces == DataType.logs) = false := rfl
  have beq_ml : (DataType.metrics == DataType.logs) = false := rfl
  have hfor_t : pipelinesFor cfg R .traces = [⟨.traces, rts, ets⟩] := by
    simp [pipelinesFor, hp, List.filter_cons, beq_tt, beq_mt, hm1]
  have hfor_m : pipelinesFor cfg R .metrics = [⟨.metrics, rms, ems⟩] := by
    simp [pipelinesFor, hp, List.filter_cons, beq_tm, beq_mm, hm2]
  have hfor_l : pipelinesFor cfg R .logs = [] := by
    simp [pipelinesFor, hp, List.filter_cons, beq_tl, beq_ml]
  have href : pipelinesReferencing cfg R
      = [⟨.traces, rts, ets⟩, ⟨.metrics, rms, ems⟩] := by
    simp [pipelinesReferencing, hp, List.filter_cons, hm1, hm2]
  have hrefne : (pipelinesReferencing cfg R).isEmpty = false := by
    rw [href]
    rfl
  have hmem : R ∈ cfg.receivers := by
    have hpos : 0 < cfg.receivers.count R := by
      rw [hc]
      exact Nat.one_pos
    exact List.count_pos_iff.mp hpos
  obtain ⟨o, ho⟩ := buildList_ok_elem f cfg cfg.receivers bs R hb hmem
  have hosome := buildReceiver_ok_used f cfg R o hrefne ho
  have hbuiltR : builtFor f cfg R
      = some ⟨R, [⟨.traces, rts, ets⟩], [⟨.metrics, rms, ems⟩], []⟩ := by
    unfold builtFor
    rw [ho, hosome, hfor_t, hfor_m, hfor_l]
  have hbs := buildList_ok_eq f cfg cfg.receivers bs hb
  refine ⟨?_, ?_, ?_⟩
  · rw [hbs,
      filter_name_filterMap_eq (builtFor f cfg) (builtFor_name f cfg) R
        cfg.receivers,
      hbuiltR, hc]
    rfl
  · intro s r e he
    rw [receiverConsumeTraces_single s r R ⟨.traces, rts, ets⟩
      [⟨.metrics, rms, ems⟩] []]
    have hcount := filter_fst_map_length (fun _ : String => s.get r) e ets
    rw [hcount]
    exact List.count_eq_one_of_mem hnd he
  · intro s r e he
    rw [receiverConsumeTraces_single s r R ⟨.traces, rts, ets⟩
      [⟨.metrics, rms, ems⟩] []]
    have hcount := filter_fst_map_length (fun _ : String => s.get r) e ets
    rw [hcount]
    exact List.count_eq_zero_of_not_mem he

/-- Witness for C3: the shared-receiver configuration — examplereceiver in
one traces pipeline (exporting to exampleexporter) and one metrics pipeline
(exporting to exampleexporter/2) — builds to one instance, and trace
delivery reaches exampleexporter exactly once and exampleexporter/2
never. -/
theorem C3_single_shared_instance_and_typed_delivery_witness :
    sharedReceiverCfg.pipelines
      = [⟨.traces, ["examplereceiver"], ["exampleexporter"]⟩,
         ⟨.metrics, ["examplereceiver"], ["exampleexporter/2"]⟩] ∧
    (["examplereceiver"] : List String).contains "examplereceiver" = true ∧
    sharedReceiverCfg.receivers.count "examplereceiver" = 1 ∧
    buildAllReceivers okFactories sharedReceiverCfg
      = .ok [⟨"examplereceiver", [sharedTracesPipeline],
          [sharedMetricsPipeline], []⟩] ∧
    (["exampleexporter"] : List String).Nodup ∧
    (([⟨"examplereceiver", [sharedTracesPipeline], [sharedMetricsPipeline],
          []⟩] : List BuiltReceiver).filter
        fun b => b.name == "examplereceiver")
      = [⟨"examplereceiver",
          [⟨.traces, ["examplereceiver"], ["exampleexporter"]⟩],
          [⟨.metrics, ["examplereceiver"], ["exampleexporter/2"]⟩], []⟩] ∧
    (∀ (s : Store Traces) (r : Nat) (e : String), e ∈ ["exampleexporter"] →
      (((receiverConsumeTraces s r
          ⟨"examplereceiver",
            [⟨.traces, ["examplereceiver"], ["exampleexporter"]⟩],
            [⟨.metrics, ["examplereceiver"], ["exampleexporter/2"]⟩],
            []⟩).2.2.filter fun o => o.1 == e).length) = 1) ∧
    (∀ (s : Store Traces) (r : Nat) (e : String),
      e ∉ (["exampleexporter"] : List String) →
      (((receiverConsumeTraces s r
          ⟨"examplereceiver",
            [⟨.traces, ["examplereceiver"], ["exampleexporter"]⟩],
            [⟨.metrics, ["examplereceiver"], ["exampleexporter/2"]⟩],
            []⟩).2.2.filter fun o => o.1 == e).length) = 0) := by
  have hmain := C3_single_shared_instance_and_typed_delivery okFactories
    sharedReceiverCfg "examplereceiver" ["examplereceiver"] ["exampleexporter"]
    ["examplereceiver"] ["exampleexporter/2"]
    [⟨"examplereceiver", [sharedTracesPipeline], [sharedMetricsPipeline], []⟩]
    rfl rfl rfl rfl rfl (by decide)
  exact ⟨rfl, rfl, rfl, rfl, by decide, hmain.1, hmain.2.1, hmain.2.2⟩

end OTel
